import Mathlib

/-!
Verification of the query-processing and confidence-scoring pipeline of a
retrieval-augmented question-answering application (`src/query_engine.py`).

The embedding is shallow: Python floats are modelled as rationals (`ℚ`),
Python lists as `List`, the dict-shaped results as an inductive
`QueryResult`, and exceptions as `Except`.  External collaborators
(the language detector, the vector-store manager and the query engine it
returns) are modelled by explicit behaviour parameters, since the
orchestrator only observes their outcomes.  A Python attribute that can be
missing, `None`, or a float is modelled by `ScoreField`.
-/

namespace RagQA

/-- The `score` attribute of a retrieved node: in Python it can be missing
(`hasattr` is false), present but `None`, or a float value. -/
inductive ScoreField where
  | absent
  | null
  | val (q : ℚ)
deriving DecidableEq, Repr

/-- A retrieved source node, as consumed by `query_engine.py`: a score
field, the chunk text, and the three metadata entries the code reads
(`filename`, `title`, `author`), each possibly missing. -/
structure Node where
  score : ScoreField
  text : String
  filename : Option String
  title : Option String
  author : Option String
deriving DecidableEq, Repr

/-- One formatted source citation (`format_sources` output dict).
`score` is `getattr(node, 'score', 0.0)`: a missing attribute becomes
`some 0`, a `None` score stays `none`, a value stays itself. -/
structure SourceCitation where
  index : Nat
  score : Option ℚ
  filename : String
  title : String
  author : String
  text_snippet : String
deriving DecidableEq, Repr

/-- The dict returned by `process_query`: either the success shape
(`success = True` with answer, confidence, sources, language, query,
timestamp) or the failure shape (`success = False` with an error
message). -/
inductive QueryResult where
  | success (answer : String) (confidence : ℚ) (sources : List SourceCitation)
      (language : String) (query : String) (timestamp : String)
  | failure (error : String)
deriving DecidableEq, Repr

/-- The collaborator `Response` object: generated answer text plus the
ranked source nodes. -/
structure Response where
  response : String
  source_nodes : List Node
deriving DecidableEq, Repr

/-- `detect_query_language`: wraps the external `langdetect.detect` call,
whose outcome is passed in as an `Except` (it may raise); any failure is
swallowed and defaults to `"en"`. -/
def detect_query_language (detectRes : Except String String) : String :=
  match detectRes with
  | .ok lang => lang
  | .error _ => "en"

/-- The Russian instruction template of `get_language_prompt`. -/
def ruPromptText : String :=
  "Ты помощник для ответов на вопросы на основе предоставленных документов.\n            \nИнструкции:\n1. Отвечай на русском языке\n2. Используй только информацию из предоставленных документов\n3. Если информации недостаточно, так и скажи\n4. Указывай источники своих ответов\n5. Будь конкретным и точным"

/-- The English instruction template of `get_language_prompt`. -/
def enPromptText : String :=
  "You are an assistant for answering questions based on provided documents.\n            \nInstructions:\n1. Answer in English\n2. Use only information from the provided documents\n3. If information is insufficient, say so\n4. Cite your sources\n5. Be specific and accurate"

/-- `get_language_prompt`: dictionary lookup with the English template as
default (`prompts.get(language, prompts["en"])`). -/
def get_language_prompt (language : String) : String :=
  if language = "ru" then ruPromptText else enPromptText

/-- The score a node contributes to the confidence average:
`hasattr(node, 'score') and node.score` keeps only a present, truthy
(non-zero) value. -/
def truthyScore (n : Node) : Option ℚ :=
  match n.score with
  | .val q => if q = 0 then none else some q
  | _ => none

/-- `calculate_confidence_score`: empty node list gives `0.0`; an empty
truthy-score list returns `0.5` immediately; otherwise the average score
is scaled to 0-100, clamped, multiplied by `0.8` for answers shorter than
50 characters, by `1.1` for at least 3 sources, and clamped above by
100. -/
def calculate_confidence_score (response : Response) : ℚ :=
  if response.source_nodes = [] then 0
  else
    let scores := response.source_nodes.filterMap truthyScore
    if scores = [] then 1/2
    else
      let avg_score := scores.sum / (scores.length : ℚ)
      let confidence := min 100 (max 0 (avg_score * 100))
      let confidence := if response.response.length < 50 then confidence * (4/5) else confidence
      let confidence := if 3 ≤ response.source_nodes.length then confidence * (11/10) else confidence
      min 100 confidence

/-- `getattr(node, 'score', 0.0)` as used by `format_sources`: default
`0.0` when the attribute is missing, `None` kept as `none`. -/
def getattrScore (n : Node) : Option ℚ :=
  match n.score with
  | .absent => some 0
  | .null => none
  | .val q => some q

/-- The `text_snippet` rule of `format_sources`: texts longer than 200
characters are cut to 200 characters plus an ellipsis marker. -/
def textSnippet (t : String) : String :=
  if t.length > 200 then t.take 200 ++ "..." else t

/-- `format_sources`: enumerate the nodes, assigning 1-based indices,
defaulting each missing metadata field to `"Unknown"`. -/
def format_sources (source_nodes : List Node) : List SourceCitation :=
  source_nodes.enum.map (fun p =>
    { index := p.1 + 1
      score := getattrScore p.2
      filename := p.2.filename.getD "Unknown"
      title := p.2.title.getD "Unknown"
      author := p.2.author.getD "Unknown"
      text_snippet := textSnippet p.2.text })

/-- The message of the `TypeError` raised by comparing `None` with a
float; the exact Python wording is irrelevant to the model, only that an
exception with some message is raised. -/
def typeErrorMsg : String := "unsupported comparison between NoneType and float"

/-- The threshold filter of `process_query` (the list comprehension
`[node for node in response.source_nodes if hasattr(node, 'score') and
node.score >= similarity_threshold]`): a missing score skips the node, a
`None` score raises a `TypeError`, a valued score is compared against the
threshold. -/
def filterSources (threshold : ℚ) : List Node → Except String (List Node)
  | [] => .ok []
  | n :: rest =>
    match n.score with
    | .absent => filterSources threshold rest
    | .null => .error typeErrorMsg
    | .val q => (filterSources threshold rest).map (fun r => if threshold ≤ q then n :: r else r)

/-- The observable behaviour of `self.vector_store_manager` together with
the query engine it hands back: `get_query_engine` may itself raise (this
call sits outside the `try` block), may return a falsy engine, or returns
an engine whose `query` call either raises or yields a response. -/
inductive EngineResult where
  | raisesOnGet (msg : String)
  | noEngine
  | queryRaises (msg : String)
  | queryReturns (answer : String) (nodes : List Node)
deriving DecidableEq, Repr

/-- Collaborator-boundary events emitted by one `process_query` call, in
order: the language-detection call, the `get_query_engine` call with the
arguments the code passes it, a prompt-selector consultation
(`get_language_prompt`), and the query-engine invocation. -/
inductive Event where
  | detectLanguage (text : String)
  | getEngine (similarity_top_k : Nat) (metadata_filters : List (String × String))
  | consultPromptSelector (language : String)
  | invokeCollaborator (text : String)
deriving DecidableEq, Repr

/-- Decidable equality for `Except`, needed to evaluate concrete
`process_query` outcomes. -/
instance {ε α : Type} [DecidableEq ε] [DecidableEq α] :
    DecidableEq (Except ε α) := fun a b =>
  match a, b with
  | .error e, .error f =>
      if h : e = f then .isTrue (congrArg Except.error h)
      else .isFalse (fun hc => h (Except.noConfusion hc id))
  | .ok x, .ok y =>
      if h : x = y then .isTrue (congrArg Except.ok h)
      else .isFalse (fun hc => h (Except.noConfusion hc id))
  | .error _, .ok _ => .isFalse (fun hc => Except.noConfusion hc)
  | .ok _, .error _ => .isFalse (fun hc => Except.noConfusion hc)

/-- Outcome of one `process_query` call: the returned dict (or, as
`Except.error`, an exception that escaped to the caller), the query
history after the call, and the trace of collaborator-boundary events. -/
structure ProcOut where
  result : Except String QueryResult
  history : List QueryResult
  trace : List Event
deriving DecidableEq, Repr

/-- The canned no-relevant-documents answer, localized on the detected
query language exactly as in the code (`Russian if query_language == "ru"
else English`). -/
def noResultsAnswer (query_language : String) : String :=
  if query_language = "ru" then
    "Не найдено релевантных документов для ответа на ваш вопрос."
  else
    "No relevant documents found to answer your question."

/-- `process_query`, line by line: detect the language, obtain the query
engine (an exception here escapes, a falsy engine returns the
upload-documents failure), then inside the `try` block run the query,
filter the sources by threshold, short-circuit the empty filtered set with
the canned success, otherwise score, format sources, append the success to
history and return it; any exception inside the `try` becomes a failure
dict.  `detectRes` and `vsm` carry the external collaborators' behaviour;
`timestamp` stands for `datetime.now().isoformat()`. -/
def process_query (vsm : EngineResult) (query : String)
    (detectRes : Except String String) (similarity_top_k : Nat)
    (similarity_threshold : ℚ) (metadata_filters : List (String × String))
    (timestamp : String) (history : List QueryResult) : ProcOut :=
  let query_language := detect_query_language detectRes
  let trace0 := [Event.detectLanguage query,
                 Event.getEngine similarity_top_k metadata_filters]
  match vsm with
  | .raisesOnGet msg => ⟨.error msg, history, trace0⟩
  | .noEngine =>
      ⟨.ok (.failure "Query engine not available. Please upload documents first."),
       history, trace0⟩
  | .queryRaises msg =>
      ⟨.ok (.failure ("Error processing query: " ++ msg)),
       history, trace0 ++ [Event.invokeCollaborator query]⟩
  | .queryReturns answer nodes =>
      let trace := trace0 ++ [Event.invokeCollaborator query]
      match filterSources similarity_threshold nodes with
      | .error e =>
          ⟨.ok (.failure ("Error processing query: " ++ e)), history, trace⟩
      | .ok filtered_sources =>
          if filtered_sources = [] then
            ⟨.ok (.success (noResultsAnswer query_language) 0 [] query_language
                    query timestamp),
             history, trace⟩
          else
            let confidence := calculate_confidence_score ⟨answer, filtered_sources⟩
            let sources := format_sources filtered_sources
            let result := QueryResult.success answer confidence sources
                            query_language query timestamp
            ⟨.ok result, history ++ [result], trace⟩

/-- `get_query_history`: `self.query_history[-limit:] if self.query_history
else []`.  Python slicing with a negative start: `[-limit:]` is the whole
list when `limit = 0`, and the last `min limit length` entries when
`limit ≥ 1`. -/
def get_query_history (query_history : List QueryResult) (limit : Nat) :
    List QueryResult :=
  if query_history = [] then []
  else if limit = 0 then query_history
  else query_history.drop (query_history.length - limit)

/-- `clear_history`: resets the history to the empty list. -/
def clear_history (_query_history : List QueryResult) : List QueryResult := []

/-- `q.get("success", False)` as a Boolean on the two dict shapes. -/
def QueryResult.isSuccess : QueryResult → Bool
  | .success .. => true
  | .failure _ => false

/-- `q.get("language", "unknown")` on the two dict shapes (failure dicts
carry no language key). -/
def QueryResult.langOf : QueryResult → String
  | .success _ _ _ language _ _ => language
  | .failure _ => "unknown"

/-- `q.get("confidence", 0)` on the two dict shapes (failure dicts carry
no confidence key). -/
def QueryResult.confOf : QueryResult → ℚ
  | .success _ confidence _ _ _ _ => confidence
  | .failure _ => 0

/-- `sources` of a success dict; a failure dict has none. -/
def QueryResult.sourcesOf : QueryResult → List SourceCitation
  | .success _ _ sources _ _ _ => sources
  | .failure _ => []

/-- One step of the language-distribution accumulation
(`lang_dist[lang] = lang_dist.get(lang, 0) + 1`), on an association
list. -/
def bumpLang (dist : List (String × Nat)) (lang : String) : List (String × Nat) :=
  if dist.any (fun p => p.1 = lang) then
    dist.map (fun p => if p.1 = lang then (p.1, p.2 + 1) else p)
  else dist ++ [(lang, 1)]

/-- Round-half-to-even to an integer, the rounding Python's `round` uses;
on the rational model this stands for the float rounding. -/
def roundHalfEven (x : ℚ) : ℤ :=
  let f := ⌊x⌋
  let frac := x - (f : ℚ)
  if frac < 1/2 then f
  else if 1/2 < frac then f + 1
  else if f % 2 = 0 then f else f + 1

/-- `round(x, 2)` on the rational model. -/
def round2 (x : ℚ) : ℚ := (roundHalfEven (x * 100) : ℚ) / 100

/-- The dict returned by `get_statistics`.  On an empty history the code
returns a dict without the `successful_queries` key, hence the `Option`. -/
structure Stats where
  total_queries : Nat
  successful_queries : Option Nat
  avg_confidence : ℚ
  language_distribution : List (String × Nat)
  recent_queries : Nat
deriving DecidableEq, Repr

/-- `get_statistics`: empty history returns the zero dict (with no
`successful_queries` key); otherwise totals over the history, the
language distribution and average confidence over the successful entries,
and the successful count among the last 24 entries. -/
def get_statistics (query_history : List QueryResult) : Stats :=
  if query_history = [] then
    { total_queries := 0
      successful_queries := none
      avg_confidence := 0
      language_distribution := []
      recent_queries := 0 }
  else
    let successful_queries := query_history.filter (fun q => q.isSuccess)
    let languages := successful_queries.map QueryResult.langOf
    let lang_dist := languages.foldl bumpLang []
    let confidences := successful_queries.map QueryResult.confOf
    let avg_confidence :=
      if confidences = [] then 0 else confidences.sum / (confidences.length : ℚ)
    { total_queries := query_history.length
      successful_queries := some successful_queries.length
      avg_confidence := round2 avg_confidence
      language_distribution := lang_dist
      recent_queries :=
        ((query_history.drop (query_history.length - 24)).filter
          (fun q => q.isSuccess)).length }

/-- The scores the spec sentence of C1 averages: every present score,
including zero (`all defined match scores`). -/
def definedScores (nodes : List Node) : List ℚ :=
  nodes.filterMap (fun n =>
    match n.score with
    | .val q => some q
    | _ => none)

/-- The confidence computation as claim C1 words it: mean of all defined
scores (default `0.5` as the mean when none is defined), scaled and
clamped to 0-100, then the length penalty, the count boost and the final
clamp. -/
def confidence_claimed (response : Response) : ℚ :=
  if response.source_nodes = [] then 0
  else
    let scores := definedScores response.source_nodes
    let meanScore := if scores = [] then 1/2 else scores.sum / (scores.length : ℚ)
    let base := min 100 (max 0 (meanScore * 100))
    let afterPenalty := if response.response.length < 50 then base * (4/5) else base
    let afterBoost :=
      if 3 ≤ response.source_nodes.length then afterPenalty * (11/10) else afterPenalty
    min 100 afterBoost

/-- The scores the code actually averages, written from the amended
wording: present and non-zero. -/
def nonzeroScores (nodes : List Node) : List ℚ :=
  nodes.filterMap (fun n =>
    match n.score with
    | .val q => if q ≠ 0 then some q else none
    | _ => none)

/-- Scale a mean score to the 0-100 range and clamp (amended claim,
step 3). -/
def baseScale (meanScore : ℚ) : ℚ := min 100 (max 0 (meanScore * 100))

/-- Length penalty of the amended claim: answers shorter than 50
characters lose a fifth of the confidence. -/
def penaltyStep (answerLength : Nat) (c : ℚ) : ℚ :=
  if answerLength < 50 then c * (4/5) else c

/-- Count boost of the amended claim: three or more sources gain a
tenth. -/
def boostStep (sourceCount : Nat) (c : ℚ) : ℚ :=
  if 3 ≤ sourceCount then c * (11/10) else c

/-- Final upper clamp of the amended claim. -/
def finalClamp (c : ℚ) : ℚ := min 100 c

/-- The confidence computation as the amended claim words it: on a
non-empty match list, average the present non-zero scores and run
scale-penalty-boost-clamp; when no match carries a non-zero score, return
`0.5` directly, with no scaling, penalty or boost. -/
def confidence_amended (response : Response) : ℚ :=
  if response.source_nodes = [] then 0
  else
    match nonzeroScores response.source_nodes with
    | [] => 1/2
    | s :: ss =>
        let meanScore := (s :: ss).sum / ((s :: ss).length : ℚ)
        finalClamp (boostStep response.source_nodes.length
          (penaltyStep response.response.length (baseScale meanScore)))

/-- The spec wording of the retrieval filter's keep condition: the score
is defined and at least the threshold. -/
def definedGE (threshold : ℚ) (n : Node) : Bool :=
  match n.score with
  | .val q => threshold ≤ q
  | _ => false

/-- Recognizes a prompt-selector consultation event. -/
def isConsultEvent : Event → Bool
  | .consultPromptSelector _ => true
  | _ => false

/-- Recognizes a generation-collaborator invocation event. -/
def isInvokeEvent : Event → Bool
  | .invokeCollaborator _ => true
  | _ => false

/-! ### Concrete fixtures used by witnesses and counterexamples -/

/-- An answer text of 63 characters (no length penalty applies). -/
def exAnswer : String :=
  "This answer is certainly longer than fifty characters in total."

/-- A node with score 0.9 and full metadata. -/
def exNode : Node := ⟨.val (9/10), "short", some "f.pdf", some "T", some "A"⟩

/-- A node whose score attribute is missing. -/
def exNodeAbsent : Node := ⟨.absent, "t", none, none, none⟩

/-- A node whose score is present and zero. -/
def exNodeZero : Node := ⟨.val 0, "t", none, none, none⟩

/-- A node whose score attribute is present but `None`. -/
def exNodeNull : Node := ⟨.null, "x", none, none, none⟩

/-- A node whose score 0.5 falls below the 0.7 threshold. -/
def lowNode : Node := ⟨.val (1/2), "low", some "g.pdf", none, none⟩

/-- The success result `process_query` builds from `exAnswer` and
`[exNode]` at threshold 0.7: confidence 90, one formatted source. -/
def mkScored (q ts : String) : QueryResult :=
  .success exAnswer 90 [⟨1, some (9/10), "f.pdf", "T", "A", "short"⟩] "en" q ts

/-- One successful `process_query` call of the statistics scenario. -/
def scenarioStep (q ts : String) (h : List QueryResult) : ProcOut :=
  process_query (.queryReturns exAnswer [exNode]) q (.ok "en") 5 (7/10) [] ts h

/-- History after the first successful call. -/
def scenarioH1 : List QueryResult := (scenarioStep "q1" "t1" []).history

/-- History after the second successful call. -/
def scenarioH2 : List QueryResult := (scenarioStep "q2" "t2" scenarioH1).history

/-- History after the third successful call. -/
def scenarioH3 : List QueryResult := (scenarioStep "q3" "t3" scenarioH2).history

/-- History after a fourth, failing call (engine unavailable). -/
def scenarioH4 : List QueryResult :=
  (process_query .noEngine "q4" (.ok "en") 5 (7/10) [] "t4" scenarioH3).history

/-- Histories reachable through the orchestrator interface: the empty
initial history, `clear_history`, and the history left behind by any
`process_query` call. -/
inductive ReachableHistory : List QueryResult → Prop where
  | init : ReachableHistory []
  | clearStep (h : List QueryResult) : ReachableHistory h →
      ReachableHistory (clear_history h)
  | processStep (vsm : EngineResult) (query : String)
      (detectRes : Except String String) (k : Nat) (t : ℚ)
      (mf : List (String × String)) (ts : String) (h : List QueryResult) :
      ReachableHistory h →
      ReachableHistory (process_query vsm query detectRes k t mf ts h).history

/-! ### Helper lemmas -/

/-- On a null-free node list the threshold filter succeeds and equals the
stable `List.filter` with the defined-and-at-least-threshold predicate. -/
theorem filterSources_eq_filter (t : ℚ) :
    ∀ nodes : List Node, (∀ n ∈ nodes, n.score ≠ .null) →
    filterSources t nodes = .ok (nodes.filter (definedGE t)) := by
  intro nodes
  induction nodes with
  | nil => intro _; rfl
  | cons n rest ih =>
    intro h
    have hrest := ih (fun m hm => h m (List.mem_cons_of_mem _ hm))
    have hn := h n (List.mem_cons_self _ _)
    cases hs : n.score with
    | absent => simp [filterSources, hs, hrest, List.filter_cons, definedGE]
    | null => exact absurd hs hn
    | val q =>
      by_cases hq : t ≤ q <;>
        simp [filterSources, hs, hrest, Except.map, List.filter_cons, definedGE, hq]

/-- A node list containing a null score makes the threshold filter raise
the comparison `TypeError`. -/
theorem filterSources_error_of_null (t : ℚ) :
    ∀ nodes : List Node, (∃ n ∈ nodes, n.score = .null) →
    filterSources t nodes = .error typeErrorMsg := by
  intro nodes
  induction nodes with
  | nil => rintro ⟨n, hn, -⟩; cases hn
  | cons n rest ih =>
    rintro ⟨m, hm, hms⟩
    rcases List.mem_cons.mp hm with rfl | hm'
    · simp [filterSources, hms]
    · have hrest := ih ⟨m, hm', hms⟩
      cases hs : n.score with
      | absent => simp [filterSources, hs, hrest]
      | null => simp [filterSources, hs]
      | val q => simp [filterSources, hs, hrest, Except.map]

/-- The truthy-score extraction of the code and the non-zero-score
extraction of the amended wording agree. -/
theorem filterMap_truthy_eq_nonzero (nodes : List Node) :
    nodes.filterMap truthyScore = nonzeroScores nodes := by
  induction nodes with
  | nil => rfl
  | cons n rest ih =>
    cases hs : n.score with
    | absent => simpa [List.filterMap_cons, truthyScore, nonzeroScores, hs] using ih
    | null => simpa [List.filterMap_cons, truthyScore, nonzeroScores, hs] using ih
    | val q =>
      by_cases hq : q = 0 <;>
        simpa [List.filterMap_cons, truthyScore, nonzeroScores, hs, hq] using ih

/-- Formatting produces one citation per node. -/
theorem format_sources_eq_nil_iff (nodes : List Node) :
    format_sources nodes = [] ↔ nodes = [] := by
  cases nodes <;> simp [format_sources, List.enum]

/-! ### Claim theorems -/

/-- C4: for every null-free match sequence and every threshold, the
threshold filter returns exactly the matches whose score is defined and at
least the threshold, as a stable `List.filter` of the input (so relative
order is preserved and unscored matches are dropped), and filtering the
filtered list again changes nothing. -/
theorem filter_spec_and_idempotent (nodes : List Node) (t : ℚ)
    (hnull : ∀ n ∈ nodes, n.score ≠ .null) :
    filterSources t nodes = .ok (nodes.filter (definedGE t)) ∧
    filterSources t (nodes.filter (definedGE t)) = .ok (nodes.filter (definedGE t)) := by
  have h1 := filterSources_eq_filter t nodes hnull
  have hsub : ∀ n ∈ nodes.filter (definedGE t), n.score ≠ .null :=
    fun n hn => hnull n (List.mem_of_mem_filter hn)
  have h2 := filterSources_eq_filter t _ hsub
  have h3 : (nodes.filter (definedGE t)).filter (definedGE t) = nodes.filter (definedGE t) :=
    List.filter_eq_self.mpr (fun a ha => List.of_mem_filter ha)
  exact ⟨h1, by rw [h2, h3]⟩

/-- Witness for C4: the filter evaluated on a three-node list keeping one
node above the 0.7 threshold. -/
theorem filter_spec_and_idempotent_witness :
    filterSources (7/10) [exNode, exNodeAbsent, lowNode] =
      .ok ([exNode, exNodeAbsent, lowNode].filter (definedGE (7/10))) ∧
    filterSources (7/10) ([exNode, exNodeAbsent, lowNode].filter (definedGE (7/10))) =
      .ok ([exNode, exNodeAbsent, lowNode].filter (definedGE (7/10))) :=
  filter_spec_and_idempotent [exNode, exNodeAbsent, lowNode] (7/10) (by decide)

/-- C8: the confidence score always lies in the interval 0 to 100, and it
is exactly 0 on an empty filtered match list. -/
theorem confidence_bounds (resp : Response) :
    0 ≤ calculate_confidence_score resp ∧ calculate_confidence_score resp ≤ 100 ∧
    (resp.source_nodes = [] → calculate_confidence_score resp = 0) := by
  unfold calculate_confidence_score
  by_cases h0 : resp.source_nodes = []
  · simp [h0]
  · simp only [h0, if_false]
    by_cases h1 : resp.source_nodes.filterMap truthyScore = []
    · simp only [h1, if_true, eq_self_iff_true]
      norm_num
    · simp only [h1, if_false]
      set avg := (resp.source_nodes.filterMap truthyScore).sum /
        ((resp.source_nodes.filterMap truthyScore).length : ℚ) with havg
      set c0 : ℚ := min 100 (max 0 (avg * 100)) with hc0
      have hc0l : (0:ℚ) ≤ c0 := le_min (by norm_num) (le_max_left 0 _)
      set c1 : ℚ := if resp.response.length < 50 then c0 * (4/5) else c0 with hc1
      have hc1l : (0:ℚ) ≤ c1 := by
        rw [hc1]; split
        · exact mul_nonneg hc0l (by norm_num)
        · exact hc0l
      set c2 : ℚ := if 3 ≤ resp.source_nodes.length then c1 * (11/10) else c1 with hc2
      have hc2l : (0:ℚ) ≤ c2 := by
        rw [hc2]; split
        · exact mul_nonneg hc1l (by norm_num)
        · exact hc1l
      exact ⟨le_min (by norm_num) hc2l, min_le_left _ _, fun hc => hc.elim⟩

/-- Witness for C8: the empty filtered match list gives confidence 0. -/
theorem confidence_bounds_witness :
    calculate_confidence_score ⟨"a", []⟩ = 0 :=
  (confidence_bounds ⟨"a", []⟩).2.2 rfl

/-- C10: a match whose score field is present but `None` is not dropped
by the threshold filter; the comparison errors and the catch-all handler
turns the whole query into a Failure result, leaving history
unchanged. -/
theorem null_score_fails_query (answer : String) (nodes : List Node)
    (q : String) (d : Except String String) (k : Nat) (t : ℚ)
    (mf : List (String × String)) (ts : String) (h : List QueryResult)
    (hnull : ∃ n ∈ nodes, n.score = .null) :
    (process_query (.queryReturns answer nodes) q d k t mf ts h).result =
      .ok (.failure ("Error processing query: " ++ typeErrorMsg)) ∧
    (process_query (.queryReturns answer nodes) q d k t mf ts h).history = h := by
  have hf := filterSources_error_of_null t nodes hnull
  simp [process_query, hf]

/-- Witness for C10: one null-scored node fails the whole query. -/
theorem null_score_fails_query_witness :
    (process_query (.queryReturns "a" [exNodeNull]) "q" (.ok "en") 5 (7/10) [] "ts" []).result =
      .ok (.failure ("Error processing query: " ++ typeErrorMsg)) ∧
    (process_query (.queryReturns "a" [exNodeNull]) "q" (.ok "en") 5 (7/10) [] "ts" []).history = [] :=
  null_score_fails_query "a" [exNodeNull] "q" (.ok "en") 5 (7/10) [] "ts" []
    ⟨exNodeNull, List.mem_singleton.mpr rfl, rfl⟩

/-- C6 counterexample: with one stored entry, `recent(0)` returns the
whole history, not the empty sequence the claim demands. -/
theorem recent_zero_returns_all :
    get_query_history [QueryResult.failure "e"] 0 = [QueryResult.failure "e"] ∧
    get_query_history [QueryResult.failure "e"] 0 ≠ [] := by
  exact ⟨rfl, by decide⟩

/-- C6 as amended: for a positive limit, `recent(limit)` is the suffix of
the last `min limit length` entries in chronological order; `recent(0)`
returns the entire history. -/
theorem recent_limit_spec (h : List QueryResult) (limit : Nat) :
    (limit = 0 → get_query_history h limit = h) ∧
    (1 ≤ limit → get_query_history h limit = h.drop (h.length - limit) ∧
      (get_query_history h limit).length = min limit h.length) := by
  constructor
  · rintro rfl
    by_cases hh : h = [] <;> simp [get_query_history, hh]
  · intro hl
    have hlz : limit ≠ 0 := by omega
    by_cases hh : h = []
    · subst hh; simp [get_query_history]
    · have hval : get_query_history h limit = h.drop (h.length - limit) := by
        simp [get_query_history, hh, hlz]
      refine ⟨hval, ?_⟩
      rw [hval, List.length_drop]
      omega

/-- Witness for C6: the last entry of a two-entry history at limit 1. -/
theorem recent_limit_spec_witness :
    get_query_history [QueryResult.failure "a", QueryResult.failure "b"] 1 =
      [QueryResult.failure "a", QueryResult.failure "b"].drop
        ([QueryResult.failure "a", QueryResult.failure "b"].length - 1) ∧
    (get_query_history [QueryResult.failure "a", QueryResult.failure "b"] 1).length =
      min 1 [QueryResult.failure "a", QueryResult.failure "b"].length :=
  (recent_limit_spec [QueryResult.failure "a", QueryResult.failure "b"] 1).2 (by decide)

/-- C5: when the filtered match set is empty, `process_query` returns a
Success with confidence exactly 0, no sources, and the canned
no-relevant-documents answer localized to the detected language (Russian
for the code "ru", English otherwise), invoking the generation
collaborator exactly once and leaving history unchanged. -/
theorem no_results_short_circuit :
    (∀ (answer : String) (nodes : List Node) (q : String)
       (d : Except String String) (k : Nat) (t : ℚ)
       (mf : List (String × String)) (ts : String) (h : List QueryResult),
       filterSources t nodes = .ok [] →
       (process_query (.queryReturns answer nodes) q d k t mf ts h).result =
         .ok (.success (noResultsAnswer (detect_query_language d)) 0 []
               (detect_query_language d) q ts) ∧
       (process_query (.queryReturns answer nodes) q d k t mf ts h).history = h ∧
       ((process_query (.queryReturns answer nodes) q d k t mf ts h).trace.countP
          isInvokeEvent) = 1) ∧
    noResultsAnswer "ru" = "Не найдено релевантных документов для ответа на ваш вопрос." ∧
    (∀ lang, lang ≠ "ru" →
      noResultsAnswer lang = "No relevant documents found to answer your question.") := by
  refine ⟨?_, rfl, fun lang hl => by simp [noResultsAnswer, hl]⟩
  intro answer nodes q d k t mf ts h hf
  simp [process_query, hf, List.countP_cons, List.countP_nil, isInvokeEvent]

/-- Witness for C5: the refunds query of the spec example, with an empty
retrieval match list, in English. -/
theorem no_results_short_circuit_witness :
    (process_query (.queryReturns "gen" []) "What is the policy on refunds?"
        (.ok "en") 5 (7/10) [] "ts" []).result =
      .ok (.success (noResultsAnswer (detect_query_language (.ok "en"))) 0 []
            (detect_query_language (.ok "en")) "What is the policy on refunds?" "ts") ∧
    (process_query (.queryReturns "gen" []) "What is the policy on refunds?"
        (.ok "en") 5 (7/10) [] "ts" []).history = [] ∧
    ((process_query (.queryReturns "gen" []) "What is the policy on refunds?"
        (.ok "en") 5 (7/10) [] "ts" []).trace.countP isInvokeEvent) = 1 :=
  no_results_short_circuit.1 "gen" [] "What is the policy on refunds?"
    (.ok "en") 5 (7/10) [] "ts" [] rfl

/-- C7 counterexample: a full `process_query` run invokes the generation
collaborator once without ever consulting the prompt selector, against
the claim that the selector is consulted before that invocation. -/
theorem prompt_selector_never_consulted_run :
    ((process_query (.queryReturns "ответ" []) "вопрос" (.ok "ru") 5 (7/10) [] "ts"
        []).trace.countP isConsultEvent) = 0 ∧
    ((process_query (.queryReturns "ответ" []) "вопрос" (.ok "ru") 5 (7/10) [] "ts"
        []).trace.countP isInvokeEvent) = 1 := by
  constructor <;> rfl

/-- C7 as amended: the prompt selector maps "ru" to the Russian template
and every other code to the English template, but the orchestrator never
consults it: no `process_query` trace contains a prompt-selector
consultation, so no selected template reaches the collaborator. -/
theorem prompt_selector_amended :
    (∀ lang, lang ≠ "ru" → get_language_prompt lang = enPromptText) ∧
    get_language_prompt "ru" = ruPromptText ∧
    (∀ (vsm : EngineResult) (q : String) (d : Except String String) (k : Nat)
       (t : ℚ) (mf : List (String × String)) (ts : String) (h : List QueryResult),
      ((process_query vsm q d k t mf ts h).trace.countP isConsultEvent) = 0) := by
  refine ⟨fun lang hl => by simp [get_language_prompt, hl], rfl, ?_⟩
  intro vsm q d k t mf ts h
  cases vsm with
  | raisesOnGet m =>
    simp [process_query, List.countP_cons, List.countP_nil, isConsultEvent]
  | noEngine =>
    simp [process_query, List.countP_cons, List.countP_nil, isConsultEvent]
  | queryRaises m =>
    simp [process_query, List.countP_cons, List.countP_nil, isConsultEvent]
  | queryReturns a nodes =>
    cases hf : filterSources t nodes with
    | error e =>
      simp [process_query, hf, List.countP_cons, List.countP_nil, isConsultEvent]
    | ok filtered =>
      by_cases hemp : filtered = [] <;>
        simp [process_query, hf, hemp, List.countP_cons, List.countP_nil, isConsultEvent]

/-- Witness for C7: the French code falls back to the English template,
and a concrete run consults no selector. -/
theorem prompt_selector_amended_witness :
    get_language_prompt "fr" = enPromptText ∧
    ((process_query .noEngine "q" (.ok "fr") 5 (7/10) [] "ts" []).trace.countP
      isConsultEvent) = 0 :=
  ⟨prompt_selector_amended.1 "fr" (by decide),
   prompt_selector_amended.2.2 .noEngine "q" (.ok "fr") 5 (7/10) [] "ts" []⟩

/-- C3 counterexample: an exception raised by the query-engine
construction call (`get_query_engine`, which sits outside the `try`
block) escapes `process_query` as an unhandled fault instead of becoming
a Failure result. -/
theorem engine_construction_error_escapes :
    (process_query (.raisesOnGet "pinecone boom") "q" (.ok "en") 5 (7/10) [] "ts"
      []).result = .error "pinecone boom" := rfl

/-- C3 as amended: every behaviour of the collaborator other than an
exception during query-engine construction yields a returned
`QueryResult` (Success or Failure); an exception during construction
propagates to the caller unchanged. -/
theorem process_total_except_engine_construction (vsm : EngineResult)
    (q : String) (d : Except String String) (k : Nat) (t : ℚ)
    (mf : List (String × String)) (ts : String) (h : List QueryResult) :
    ((∀ m, vsm ≠ EngineResult.raisesOnGet m) →
       ∃ r, (process_query vsm q d k t mf ts h).result = .ok r) ∧
    (∀ m, vsm = EngineResult.raisesOnGet m →
       (process_query vsm q d k t mf ts h).result = .error m) := by
  constructor
  · intro hne
    cases vsm with
    | raisesOnGet m => exact absurd rfl (hne m)
    | noEngine =>
      exact ⟨.failure "Query engine not available. Please upload documents first.", rfl⟩
    | queryRaises m =>
      exact ⟨.failure ("Error processing query: " ++ m), rfl⟩
    | queryReturns a nodes =>
      cases hf : filterSources t nodes with
      | error e =>
        refine ⟨.failure ("Error processing query: " ++ e), ?_⟩
        simp [process_query, hf]
      | ok filtered =>
        by_cases hemp : filtered = []
        · refine ⟨.success (noResultsAnswer (detect_query_language d)) 0 []
            (detect_query_language d) q ts, ?_⟩
          simp [process_query, hf, hemp]
        · refine ⟨.success a (calculate_confidence_score ⟨a, filtered⟩)
            (format_sources filtered) (detect_query_language d) q ts, ?_⟩
          simp [process_query, hf, hemp]
  · rintro m rfl
    rfl

/-- Witness for C3: an unavailable engine still returns a result. -/
theorem process_total_except_engine_construction_witness :
    ∃ r, (process_query .noEngine "q" (.ok "en") 5 (7/10) [] "ts" []).result =
      .ok r :=
  (process_total_except_engine_construction .noEngine "q" (.ok "en") 5 (7/10) []
    "ts" []).1 (fun _ hm => EngineResult.noConfusion hm)

/-- C1 counterexample: on one match with no score the code returns 0.5
while the claim predicts the scaled default 50, and on one match with a
defined zero score the code still returns 0.5 while the claim predicts a
mean of 0 and hence confidence 0. -/
theorem confidence_claim_counterexample :
    calculate_confidence_score ⟨exAnswer, [exNodeAbsent]⟩ = 1/2 ∧
    confidence_claimed ⟨exAnswer, [exNodeAbsent]⟩ = 50 ∧
    calculate_confidence_score ⟨exAnswer, [exNodeZero]⟩ = 1/2 ∧
    confidence_claimed ⟨exAnswer, [exNodeZero]⟩ = 0 ∧
    calculate_confidence_score ⟨exAnswer, [exNodeZero]⟩ ≠
      confidence_claimed ⟨exAnswer, [exNodeZero]⟩ := by
  have h1 : exAnswer.length = 63 := by decide
  norm_num [calculate_confidence_score, confidence_claimed, truthyScore, definedScores,
    exNodeAbsent, exNodeZero, h1, List.filterMap]

/-- C1 as amended: the scorer averages the present non-zero match scores
and runs scale, clamp, length penalty, count boost and final clamp; when
no match carries a non-zero score it returns 0.5 directly, skipping
scaling, penalty and boost. -/
theorem confidence_score_matches_amended (resp : Response) :
    calculate_confidence_score resp = confidence_amended resp := by
  unfold calculate_confidence_score confidence_amended
  by_cases h0 : resp.source_nodes = []
  · simp [h0]
  · simp only [h0, if_false]
    rw [filterMap_truthy_eq_nonzero]
    cases hnz : nonzeroScores resp.source_nodes with
    | nil => simp
    | cons s ss => simp [baseScale, penaltyStep, boostStep, finalClamp]

/-- C2 counterexample: an empty retrieval match list produces a Success
result (the canned no-results answer) that is returned without being
appended to the history, against the claim that every Success is
persisted. -/
theorem no_results_success_not_persisted :
    (process_query (.queryReturns "generated" []) "refunds" (.ok "en") 5 (7/10) []
        "ts" []).result =
      .ok (.success "No relevant documents found to answer your question." 0 []
            "en" "refunds" "ts") ∧
    QueryResult.isSuccess (.success
        "No relevant documents found to answer your question." 0 [] "en" "refunds"
        "ts") = true ∧
    (process_query (.queryReturns "generated" []) "refunds" (.ok "en") 5 (7/10) []
        "ts" []).history = [] := by
  refine ⟨?_, rfl, rfl⟩
  rfl

/-- C2 as amended: a returned result is appended to history exactly when
it is a Success with a non-empty source list (the scored path); the
no-relevant-matches Success, all Failure results, and escaping exceptions
leave the history unchanged. -/
theorem history_append_characterization (vsm : EngineResult) (q : String)
    (d : Except String String) (k : Nat) (t : ℚ) (mf : List (String × String))
    (ts : String) (h : List QueryResult) :
    (∀ r, (process_query vsm q d k t mf ts h).result = .ok r →
       ((process_query vsm q d k t mf ts h).history = h ++ [r] ↔
         (r.isSuccess = true ∧ r.sourcesOf ≠ []))) ∧
    (∀ e, (process_query vsm q d k t mf ts h).result = .error e →
       (process_query vsm q d k t mf ts h).history = h) := by
  cases vsm with
  | raisesOnGet m =>
    refine ⟨fun r hr => ?_, fun e _ => rfl⟩
    exact absurd hr (by simp [process_query])
  | noEngine =>
    refine ⟨fun r hr => ?_, fun e he => ?_⟩
    · have hr' : QueryResult.failure
          "Query engine not available. Please upload documents first." = r := by
        simpa [process_query] using hr
      subst hr'
      simp [process_query, QueryResult.isSuccess]
    · exact absurd he (by simp [process_query])
  | queryRaises m =>
    refine ⟨fun r hr => ?_, fun e he => ?_⟩
    · have hr' : QueryResult.failure ("Error processing query: " ++ m) = r := by
        simpa [process_query] using hr
      subst hr'
      simp [process_query, QueryResult.isSuccess]
    · exact absurd he (by simp [process_query])
  | queryReturns a nodes =>
    cases hf : filterSources t nodes with
    | error e =>
      refine ⟨fun r hr => ?_, fun e' he => ?_⟩
      · have hr' : QueryResult.failure ("Error processing query: " ++ e) = r := by
          simpa [process_query, hf] using hr
        subst hr'
        simp [process_query, hf, QueryResult.isSuccess]
      · exact absurd he (by simp [process_query, hf])
    | ok filtered =>
      by_cases hemp : filtered = []
      · refine ⟨fun r hr => ?_, fun e' he => ?_⟩
        · have hr' : QueryResult.success (noResultsAnswer (detect_query_language d))
              0 [] (detect_query_language d) q ts = r := by
            simpa [process_query, hf, hemp] using hr
          subst hr'
          simp [process_query, hf, hemp, QueryResult.isSuccess, QueryResult.sourcesOf]
        · exact absurd he (by simp [process_query, hf, hemp])
      · refine ⟨fun r hr => ?_, fun e' he => ?_⟩
        · have hr' : QueryResult.success a (calculate_confidence_score ⟨a, filtered⟩)
              (format_sources filtered) (detect_query_language d) q ts = r := by
            simpa [process_query, hf, hemp] using hr
          subst hr'
          have hsrc : format_sources filtered ≠ [] := by
            rw [ne_eq, format_sources_eq_nil_iff]
            exact hemp
          simp [process_query, hf, hemp, QueryResult.isSuccess, QueryResult.sourcesOf,
            hsrc]
        · exact absurd he (by simp [process_query, hf, hemp])

/-- Witness for C2: the scored success of the fixture run is appended. -/
theorem history_append_characterization_witness :
    (process_query (.queryReturns exAnswer [exNode]) "q1" (.ok "en") 5 (7/10) []
      "t1" []).history = [] ++ [mkScored "q1" "t1"] := by
  have hA : exAnswer.length = 63 := by decide
  have hS : ("short" : String).length = 5 := by decide
  have hres : (process_query (.queryReturns exAnswer [exNode]) "q1" (.ok "en") 5
      (7/10) [] "t1" []).result = .ok (mkScored "q1" "t1") := by
    norm_num [process_query, filterSources, truthyScore, calculate_confidence_score,
      format_sources, getattrScore, textSnippet, detect_query_language, exNode,
      mkScored, hA, hS, List.filterMap, List.enum, List.enumFrom, Except.map]
  exact ((history_append_characterization (.queryReturns exAnswer [exNode]) "q1"
      (.ok "en") 5 (7/10) [] "t1" []).1 (mkScored "q1" "t1") hres).mpr
    ⟨rfl, by simp [mkScored, QueryResult.sourcesOf]⟩

/-- C9: every entry of a reachable history is a Success, so whenever
`get_statistics` reports a successful count it equals the total; in the
concrete scenario of three successful calls followed by one failing call
the total is 3 (the failure is not counted), and after `clear_history`
the total is 0. -/
theorem history_invariant_and_statistics :
    (∀ h, ReachableHistory h →
      (∀ r ∈ h, r.isSuccess = true) ∧
      (∀ s, (get_statistics h).successful_queries = some s →
        (get_statistics h).total_queries = s)) ∧
    (get_statistics scenarioH4).total_queries = 3 ∧
    (get_statistics scenarioH4).successful_queries = some 3 ∧
    (get_statistics (clear_history scenarioH4)).total_queries = 0 := by
  have hA : exAnswer.length = 63 := by decide
  have hS : ("short" : String).length = 5 := by decide
  have hsucc : ∀ h, ReachableHistory h → ∀ r ∈ h, r.isSuccess = true := by
    intro h hreach
    induction hreach with
    | init => intro r hr; cases hr
    | clearStep h' _ _ => intro r hr; simp [clear_history] at hr
    | processStep vsm q d k t mf ts h' _ ih =>
      intro r hrmem
      cases vsm with
      | raisesOnGet m =>
        simp only [process_query] at hrmem
        exact ih r hrmem
      | noEngine =>
        simp only [process_query] at hrmem
        exact ih r hrmem
      | queryRaises m =>
        simp only [process_query] at hrmem
        exact ih r hrmem
      | queryReturns a nodes =>
        rcases hfm : filterSources t nodes with e | filtered
        · simp only [process_query, hfm] at hrmem
          exact ih r hrmem
        · by_cases hemp : filtered = []
          · subst hemp
            simp [process_query, hfm] at hrmem
            exact ih r hrmem
          · simp only [process_query, hfm, if_neg hemp] at hrmem
            rw [List.mem_append] at hrmem
            rcases hrmem with hrmem | hrmem
            · exact ih r hrmem
            · rw [List.mem_singleton] at hrmem
              subst hrmem
              rfl
  have hstat : ∀ h : List QueryResult, (∀ r ∈ h, r.isSuccess = true) →
      ∀ s, (get_statistics h).successful_queries = some s →
        (get_statistics h).total_queries = s := by
    intro h hall s hs
    by_cases hh : h = []
    · subst hh
      simp [get_statistics] at hs
    · have hfil : h.filter (fun q => q.isSuccess) = h :=
        List.filter_eq_self.mpr (fun a ha => hall a ha)
      simp only [get_statistics, hh, if_false, hfil] at hs ⊢
      simp only [Option.some.injEq] at hs
      simpa [hh] using hs
  have e1 : scenarioH1 = [mkScored "q1" "t1"] := by
    norm_num [scenarioH1, scenarioStep, process_query, filterSources, truthyScore,
      calculate_confidence_score, format_sources, getattrScore, textSnippet,
      detect_query_language, exNode, mkScored, hA, hS, List.filterMap, List.enum,
      List.enumFrom, Except.map]
  have e2 : scenarioH2 = [mkScored "q1" "t1", mkScored "q2" "t2"] := by
    norm_num [scenarioH2, scenarioStep, process_query, filterSources, truthyScore,
      calculate_confidence_score, format_sources, getattrScore, textSnippet,
      detect_query_language, exNode, mkScored, hA, hS, List.filterMap, List.enum,
      List.enumFrom, Except.map, e1]
  have e3 : scenarioH3 = [mkScored "q1" "t1", mkScored "q2" "t2", mkScored "q3" "t3"] := by
    norm_num [scenarioH3, scenarioStep, process_query, filterSources, truthyScore,
      calculate_confidence_score, format_sources, getattrScore, textSnippet,
      detect_query_language, exNode, mkScored, hA, hS, List.filterMap, List.enum,
      List.enumFrom, Except.map, e2]
  have e4 : scenarioH4 = [mkScored "q1" "t1", mkScored "q2" "t2", mkScored "q3" "t3"] := by
    rw [← e3]
    simp [scenarioH4, process_query]
  refine ⟨fun h hreach => ⟨hsucc h hreach, hstat h (hsucc h hreach)⟩, ?_, ?_, ?_⟩
  · rw [e4]
    simp [get_statistics, mkScored, QueryResult.isSuccess]
  · rw [e4]
    simp [get_statistics, mkScored, QueryResult.isSuccess]
  · simp [clear_history, get_statistics]

/-- Witness for C9: the entry stored by the first scenario call is a
Success. -/
theorem history_invariant_and_statistics_witness :
    QueryResult.isSuccess (mkScored "q1" "t1") = true := by
  have hA : exAnswer.length = 63 := by decide
  have hS : ("short" : String).length = 5 := by decide
  have e1 : scenarioH1 = [mkScored "q1" "t1"] := by
    norm_num [scenarioH1, scenarioStep, process_query, filterSources, truthyScore,
      calculate_confidence_score, format_sources, getattrScore, textSnippet,
      detect_query_language, exNode, mkScored, hA, hS, List.filterMap, List.enum,
      List.enumFrom, Except.map]
  exact (history_invariant_and_statistics.1 scenarioH1
      (ReachableHistory.processStep (.queryReturns exAnswer [exNode]) "q1"
        (.ok "en") 5 (7/10) [] "t1" [] ReachableHistory.init)).1
    (mkScored "q1" "t1") (by rw [e1]; exact List.mem_singleton.mpr rfl)

end RagQA
